import Mathlib

/-!
Shallow embedding of the file-gateway server (Express + object-store glue):
folder registry endpoints, upload/list/delete/download file endpoints, and
the event reminder poller variant.  JavaScript strings are modelled as
`List Char`; absent request fields as `none`; JS truthiness of a string
field as "present and non-empty"; fallible external SDK calls as
`Except`-valued fields of an environment record.
-/

/-- JavaScript string values (modelled as lists of characters). -/
abbrev JSStr := List Char

/-- Truthiness of an optional JS string field: `!x` is false exactly when
the field is present and non-empty. -/
def jsTruthy : Option JSStr → Bool
  | none => false
  | some s => s ≠ []

/-- Whitespace characters removed by the JS `String.prototype.trim`
(space, tab, line feed, carriage return, vertical tab, form feed,
no-break space). -/
def isJsWhitespace (c : Char) : Bool :=
  c = ' ' ∨ c = '\t' ∨ c = '\n' ∨ c = '\r' ∨ c = '\x0b' ∨ c = '\x0c' ∨ c = ' '

/-- JS `s.trim()`: strip leading and trailing whitespace. -/
def jsTrim (s : JSStr) : JSStr :=
  ((s.dropWhile isJsWhitespace).reverse.dropWhile isJsWhitespace).reverse

/-- The idiom `x ? x.trim() : ""` applied to an optional field. -/
def trimOrEmpty (s : Option JSStr) : JSStr :=
  if jsTruthy s then jsTrim (s.getD []) else []

/-- True when the string begins or ends with a whitespace character. -/
def hasEdgeWhitespace (s : JSStr) : Bool :=
  (match s.head? with | some c => isJsWhitespace c | none => false) ||
  (match s.getLast? with | some c => isJsWhitespace c | none => false)

/-- HTTP JSON response envelope of a handler: `ok` carries the success
payload (status 200, `success:true`); the error constructors carry the
error message of the corresponding status. -/
inductive ApiRes (α : Type) where
  | ok (data : α)
  | badRequest (error : JSStr)
  | forbidden (error : JSStr)
  | serverError (error : JSStr)
deriving DecidableEq

/-- HTTP status code of a response. -/
def ApiRes.status : ApiRes α → Nat
  | .ok _ => 200
  | .badRequest _ => 400
  | .forbidden _ => 403
  | .serverError _ => 500

/-- The `success` flag of the JSON envelope. -/
def ApiRes.success : ApiRes α → Bool
  | .ok _ => true
  | _ => false

/-- A folder record `{id, name, uid}` of the in-memory registry. -/
structure Folder where
  id : Nat
  name : JSStr
  uid : JSStr
deriving DecidableEq

/-- Mutable module state of the folder endpoints: the `folders` array and
the `folderIdCounter` counter. -/
structure FoldersState where
  folders : List Folder
  folderIdCounter : Nat
deriving DecidableEq

/-- State at process start: empty registry, counter at 1. -/
def initialState : FoldersState := ⟨[], 1⟩

/-- Handler of `POST /folder`: requires truthy `name` and `uid` in the body
(400 otherwise), appends `{id: folderIdCounter++, name, uid}` and returns
it. -/
def postFolderHandler (st : FoldersState) (name uid : Option JSStr) :
    ApiRes Folder × FoldersState :=
  if jsTruthy name = false ∨ jsTruthy uid = false then
    (.badRequest "Falta el nombre de la carpeta o el UID".toList, st)
  else
    let newFolder : Folder := ⟨st.folderIdCounter, name.getD [], uid.getD []⟩
    (.ok newFolder, ⟨st.folders ++ [newFolder], st.folderIdCounter + 1⟩)

/-- Handler of `GET /folders`: trims the query `uid` (400 when the result
is empty) and returns the registry entries whose `uid` equals the trimmed
query value. -/
def getFoldersHandler (st : FoldersState) (uidQ : Option JSStr) :
    ApiRes (List Folder) :=
  let uid := trimOrEmpty uidQ
  if uid = [] then
    .badRequest "Falta el UID en la query".toList
  else
    .ok (st.folders.filter (fun folder => folder.uid == uid))

/-- States reachable from process start by folder-creation requests (the
only requests that mutate the registry). -/
inductive Reachable : FoldersState → Prop where
  | init : Reachable initialState
  | step (st : FoldersState) (name uid : Option JSStr) :
      Reachable st → Reachable (postFolderHandler st name uid).2

/-- Data returned by the object store's `authorize` call (only the field
the handlers read). -/
structure B2AuthData where
  downloadUrl : JSStr
deriving DecidableEq

/-- Environment modelling the external SDK calls and environment
variables a request can reach: each fallible network call is an
`Except`-valued result (`error` = the call throws). -/
structure B2Env where
  authorize : Except JSStr B2AuthData
  getUploadUrl : Except JSStr (JSStr × JSStr)
  uploadFile : JSStr → Except JSStr JSStr
  unlinkSync : JSStr → Except JSStr Unit
  deleteFileVersion : JSStr → JSStr → Except JSStr JSStr
  getDownloadAuthorization : JSStr → Nat → Except JSStr JSStr
  bucketId : JSStr
  bucketName : JSStr

/-- An operation issued against the object store during one request. -/
inductive B2Op where
  | authorize
  | getUploadUrl
  | uploadFile (fileName : JSStr)
  | listFileNames (pre : JSStr) (maxFileCount : Nat)
  | deleteFileVersion (fileId fileName : JSStr)
  | getDownloadAuthorization (fileNamePre : JSStr) (validDurationInSeconds : Nat)
deriving DecidableEq

/-- An entry of the object store, as listed by `listFileNames`. -/
structure StoredFile where
  fileName : JSStr
  fileId : JSStr
deriving DecidableEq

/-- The uploaded multipart file as multer exposes it (`req.file`). -/
structure UploadedFile where
  path : JSStr
  originalname : JSStr
deriving DecidableEq

/-- Handler of `POST /upload`: requires a non-empty trimmed `uid` (400
otherwise), then authorizes, fetches an upload URL, builds the namespaced
path `archivos/{uid}/[{carpeta}/]{originalname}`, uploads under it,
deletes the temp file and returns `{fileId, fileName}`.  Any thrown step
becomes a 500.  Also returns the trace of object-store operations
issued. -/
def uploadHandler (env : B2Env) (uidBody carpetaBody : Option JSStr)
    (file : Option UploadedFile) :
    ApiRes (JSStr × JSStr) × List B2Op :=
  let uid := trimOrEmpty uidBody
  if uid = [] then
    (.badRequest "UID requerido".toList, [])
  else
    match env.authorize with
    | .error e => (.serverError e, [.authorize])
    | .ok _ =>
      match env.getUploadUrl with
      | .error e => (.serverError e, [.authorize, .getUploadUrl])
      | .ok _ =>
        match file with
        | none =>
          (.serverError "Cannot read properties of undefined".toList,
           [.authorize, .getUploadUrl])
        | some f =>
          let carpeta := trimOrEmpty carpetaBody
          let refPath := "archivos/".toList ++ uid ++ "/".toList
            ++ (if carpeta ≠ [] then carpeta ++ "/".toList else [])
            ++ f.originalname
          match env.uploadFile refPath with
          | .error e =>
            (.serverError e, [.authorize, .getUploadUrl, .uploadFile refPath])
          | .ok fileId =>
            match env.unlinkSync f.path with
            | .error e =>
              (.serverError e, [.authorize, .getUploadUrl, .uploadFile refPath])
            | .ok _ =>
              (.ok (fileId, refPath),
               [.authorize, .getUploadUrl, .uploadFile refPath])

/-- Handler of `GET /files`: authorizes, trims the optional query `uid`,
lists store entries under `archivos/[{uid}/]` with `maxFileCount` 100 and
returns them.  The store's list semantics (entries whose key extends the
requested string, first 100) is applied to the explicit `store` list. -/
def getFilesHandler (env : B2Env) (store : List StoredFile)
    (uidQ : Option JSStr) : ApiRes (List StoredFile) × List B2Op :=
  match env.authorize with
  | .error e => (.serverError e, [.authorize])
  | .ok _ =>
    let uid := trimOrEmpty uidQ
    let pre := "archivos/".toList ++ (if uid ≠ [] then uid ++ "/".toList else [])
    let files := (store.filter (fun f => pre.isPrefixOf f.fileName)).take 100
    (.ok files, [.authorize, .listFileNames pre 100])

/-- Handler of `DELETE /file`: requires truthy `fileId`, `fileName`, `uid`
query parameters (400 otherwise), rejects with 403 unless `fileName`
starts with `archivos/{uid}/` (uid used untrimmed), then authorizes and
issues the version-specific delete, returning the store's result. -/
def deleteFileHandler (env : B2Env) (fileId fileName uid : Option JSStr) :
    ApiRes JSStr × List B2Op :=
  if jsTruthy fileId = false ∨ jsTruthy fileName = false ∨ jsTruthy uid = false then
    (.badRequest "Se requiere fileId, fileName y uid".toList, [])
  else
    let fid := fileId.getD []
    let fn := fileName.getD []
    let u := uid.getD []
    if (("archivos/".toList ++ u ++ "/".toList).isPrefixOf fn) = false then
      (.forbidden "No autorizado para eliminar este archivo".toList, [])
    else
      match env.authorize with
      | .error e => (.serverError e, [.authorize])
      | .ok _ =>
        match env.deleteFileVersion fid fn with
        | .error e => (.serverError e, [.authorize, .deleteFileVersion fid fn])
        | .ok d => (.ok d, [.authorize, .deleteFileVersion fid fn])

/-- Handler of `GET /download`: takes `fileName` raw and `uid` trimmed,
requires both (400), rejects with 403 unless `fileName` starts with
`archivos/{trimmed uid}/`, then authorizes, requests a download
authorization for the exact `fileName` valid 3600 seconds, and returns
the composed signed URL. -/
def downloadHandler (env : B2Env) (fileNameQ uidQ : Option JSStr) :
    ApiRes JSStr × List B2Op :=
  let uid := trimOrEmpty uidQ
  if jsTruthy fileNameQ = false ∨ uid = [] then
    (.badRequest "Falta el parámetro fileName o uid".toList, [])
  else
    let fn := fileNameQ.getD []
    if (("archivos/".toList ++ uid ++ "/".toList).isPrefixOf fn) = false then
      (.forbidden "No autorizado para descargar este archivo".toList, [])
    else
      match env.authorize with
      | .error e => (.serverError e, [.authorize])
      | .ok auth =>
        match env.getDownloadAuthorization fn 3600 with
        | .error e =>
          (.serverError e, [.authorize, .getDownloadAuthorization fn 3600])
        | .ok token =>
          (.ok (auth.downloadUrl ++ "/file/".toList ++ env.bucketName
              ++ "/".toList ++ fn ++ "?Authorization=".toList ++ token),
           [.authorize, .getDownloadAuthorization fn 3600])

/-- A concrete environment in which every external call succeeds, used to
evaluate the handlers on concrete requests. -/
def stubEnv : B2Env :=
  ⟨.ok ⟨"https://f003.backblazeb2.com".toList⟩,
   .ok ("https://pod.backblazeb2.com/up".toList, "uptok".toList),
   fun _ => .ok "fid123".toList,
   fun _ => .ok (),
   fun _ _ => .ok "deleted".toList,
   fun _ _ => .ok "dltok".toList,
   "bkt1".toList,
   "mybucket".toList⟩

/-- An event document of the external collection, as the poller reads it:
`start` is a date string, `time` an HH:MM string, `email` and `userId`
optional fields. -/
structure Evento where
  title : JSStr
  start : JSStr
  time : JSStr
  email : Option JSStr
  userId : Option JSStr
deriving DecidableEq

/-- A reminder email dispatched by the poller (recipient and the event
title the message is about). -/
structure SentMail where
  recipient : JSStr
  title : JSStr
deriving DecidableEq

/-- The string the poller hands to the Date constructor:
`start + "T" + time + ":00"`. -/
def eventDateStr (e : Evento) : JSStr :=
  e.start ++ "T".toList ++ e.time ++ ":00".toList

/-- Recipient resolution of the poller body: use the event's `email` field
when truthy; otherwise, when `userId` is truthy, look the user up through
the identity provider (`getUser uid = none` models a thrown lookup,
`some r` the record's possibly-absent email field) and use its email when
truthy; in every other case no recipient is found. -/
def resolveRecipient (getUser : JSStr → Option (Option JSStr)) (e : Evento) :
    Option JSStr :=
  let email := e.email
  if jsTruthy email = false ∧ jsTruthy e.userId = true then
    match getUser (e.userId.getD []) with
    | none => none
    | some email1 => if jsTruthy email1 then email1 else none
  else if jsTruthy email then email else none

/-- Per-event body of `checkUpcomingEvents`: parse the event instant
(`parse` returns `none` for an invalid date, whose comparisons are all
false), fire only when `now ≤ t ≤ now + 5` minutes, resolve the recipient
and send.  Returns the email sent (if any) and the list of identity
lookups performed. -/
def notifyFor (parse : JSStr → Option Int) (getUser : JSStr → Option (Option JSStr))
    (now : Int) (e : Evento) : Option SentMail × List JSStr :=
  match parse (eventDateStr e) with
  | none => (none, [])
  | some eventDateTime =>
    if now ≤ eventDateTime ∧ eventDateTime ≤ now + 5 * 60 * 1000 then
      if jsTruthy e.email = false ∧ jsTruthy e.userId = true then
        match getUser (e.userId.getD []) with
        | none => (none, [e.userId.getD []])
        | some email1 =>
          if jsTruthy email1 then
            (some ⟨email1.getD [], e.title⟩, [e.userId.getD []])
          else (none, [e.userId.getD []])
      else
        if jsTruthy e.email then (some ⟨e.email.getD [], e.title⟩, [])
        else (none, [])
    else (none, [])

/-- One tick of the reminder poller: scan every document of the event
collection and send the per-event reminders. -/
def checkUpcomingEvents (parse : JSStr → Option Int)
    (getUser : JSStr → Option (Option JSStr)) (now : Int)
    (eventos : List Evento) : List SentMail :=
  eventos.filterMap (fun e => (notifyFor parse getUser now e).1)

/-- Registry invariant: ids strictly increase along the list and stay
below the counter. -/
def goodState (st : FoldersState) : Prop :=
  (st.folders.map Folder.id).Chain' (· < ·) ∧
  ∀ f ∈ st.folders, f.id < st.folderIdCounter

/-- A concrete date parser: recognizes one instant, invalid elsewhere. -/
def stubParse : JSStr → Option Int :=
  fun s => if s = "2026-01-01T10:03:00".toList then some 180000 else none

/-- A concrete identity provider: one known user with a stored email. -/
def stubGetUser : JSStr → Option (Option JSStr) :=
  fun u => if u = "uid9".toList then some (some "ana@example.com".toList) else none

/-- A concrete event without a stored email but with a valid userId. -/
def ev9 : Evento :=
  ⟨"Reunión".toList, "2026-01-01".toList, "10:03".toList, none,
   some "uid9".toList⟩

/-- The first element surviving `dropWhile` does not satisfy the
predicate. -/
theorem head?_dropWhile_not (p : Char → Bool) (l : List Char) (c : Char)
    (h : (l.dropWhile p).head? = some c) : p c = false := by
  induction l with
  | nil => simp at h
  | cons a l ih =>
    rw [List.dropWhile_cons] at h
    split at h
    · exact ih h
    · next hp =>
      simp at h
      subst h
      simpa using hp

/-- A trimmed string does not start with whitespace. -/
theorem jsTrim_head? (s : JSStr) (c : Char) (h : (jsTrim s).head? = some c) :
    isJsWhitespace c = false := by
  have hne : jsTrim s ≠ [] := by
    intro hn
    rw [hn] at h
    simp at h
  have hpre : jsTrim s <+: s.dropWhile isJsWhitespace := by
    unfold jsTrim
    rw [← List.reverse_suffix, List.reverse_reverse]
    exact List.dropWhile_suffix _
  obtain ⟨v, hv⟩ := hpre
  have hc : (s.dropWhile isJsWhitespace).head? = some c := by
    rw [← hv, List.head?_append_of_ne_nil _ hne, h]
  exact head?_dropWhile_not _ _ _ hc

/-- A trimmed string does not end with whitespace. -/
theorem jsTrim_getLast? (s : JSStr) (c : Char) (h : (jsTrim s).getLast? = some c) :
    isJsWhitespace c = false := by
  unfold jsTrim at h
  rw [List.getLast?_reverse] at h
  exact head?_dropWhile_not _ _ _ h

/-- The result of `jsTrim` never has leading or trailing whitespace. -/
theorem jsTrim_noEdgeWhitespace (s : JSStr) :
    hasEdgeWhitespace (jsTrim s) = false := by
  unfold hasEdgeWhitespace
  rw [Bool.or_eq_false_iff]
  constructor
  · cases hh : (jsTrim s).head? with
    | none => rfl
    | some c => exact jsTrim_head? s c hh
  · cases hh : (jsTrim s).getLast? with
    | none => rfl
    | some c => exact jsTrim_getLast? s c hh

/-- A string with leading or trailing whitespace is never the value of
`jsTrim`. -/
theorem jsTrim_ne_of_edgeWhitespace (u q : JSStr)
    (hu : hasEdgeWhitespace u = true) : jsTrim q ≠ u := by
  intro he
  rw [← he, jsTrim_noEdgeWhitespace] at hu
  exact Bool.false_ne_true hu

/-- The two possible outcomes of a folder-creation request on the
registry state. -/
theorem postFolder_state_cases (st : FoldersState) (name uid : Option JSStr) :
    (postFolderHandler st name uid).2 = st ∨
    (postFolderHandler st name uid).2 =
      ⟨st.folders ++ [⟨st.folderIdCounter, name.getD [], uid.getD []⟩],
       st.folderIdCounter + 1⟩ := by
  unfold postFolderHandler
  split
  · exact Or.inl rfl
  · exact Or.inr rfl

/-- The registry invariant holds in every reachable state. -/
theorem reachable_good (st : FoldersState) (h : Reachable st) : goodState st := by
  induction h with
  | init => exact ⟨List.chain'_nil, by intro f hf; simp [initialState] at hf⟩
  | step st name uid _ ih =>
    rcases postFolder_state_cases st name uid with hc | hc
    · rw [hc]; exact ih
    · rw [hc]
      constructor
      · simp only [List.map_append, List.map_cons, List.map_nil]
        refine List.Chain'.append ih.1 (List.chain'_singleton _) ?_
        intro x hx y hy
        simp only [List.head?_cons, Option.mem_def, Option.some.injEq] at hy
        subst hy
        have hx' := List.mem_of_mem_getLast? hx
        simp only [List.mem_map] at hx'
        obtain ⟨f, hf, rfl⟩ := hx'
        exact ih.2 f hf
      · intro f hf
        simp only [List.mem_append, List.mem_singleton] at hf
        rcases hf with hf | hf
        · exact Nat.lt_succ_of_lt (ih.2 f hf)
        · subst hf; exact Nat.lt_succ_self _

/-- C8: a POST /upload whose uid field is absent or trims to the empty
string answers 400 and issues no object-store operation (no authorize, no
upload-URL request, no upload). -/
theorem C8_upload_empty_uid_no_store_op (env : B2Env)
    (uidBody carpetaBody : Option JSStr) (file : Option UploadedFile)
    (h : trimOrEmpty uidBody = []) :
    (uploadHandler env uidBody carpetaBody file).1.status = 400 ∧
    (uploadHandler env uidBody carpetaBody file).2 = [] := by
  unfold uploadHandler
  simp [h, ApiRes.status]

theorem C8_upload_empty_uid_no_store_op_witness :
    trimOrEmpty (some "   ".toList) = [] ∧
    ((uploadHandler stubEnv (some "   ".toList) none none).1.status = 400 ∧
     (uploadHandler stubEnv (some "   ".toList) none none).2 = []) :=
  ⟨by decide, C8_upload_empty_uid_no_store_op stubEnv (some "   ".toList) none none
    (by decide)⟩

/-- C3: a successful POST /upload returns and stores the path
`archivos/{uid}/[{carpeta}/]{originalname}` (uid and carpeta trimmed),
and every path handed to the store's upload call begins with
`archivos/{uid}/`. -/
theorem C3_upload_path_namespaced (env : B2Env)
    (uidBody carpetaBody : Option JSStr) (f : UploadedFile)
    (fid fn : JSStr) (ops : List B2Op)
    (h : uploadHandler env uidBody carpetaBody (some f) = (.ok (fid, fn), ops)) :
    fn = "archivos/".toList ++ trimOrEmpty uidBody ++ "/".toList
      ++ (if trimOrEmpty carpetaBody ≠ [] then
            trimOrEmpty carpetaBody ++ "/".toList else [])
      ++ f.originalname
    ∧ ("archivos/".toList ++ trimOrEmpty uidBody ++ "/".toList) <+: fn
    ∧ ∀ q, B2Op.uploadFile q ∈ ops →
        ("archivos/".toList ++ trimOrEmpty uidBody ++ "/".toList) <+: q := by
  simp only [uploadHandler] at h
  by_cases huid : trimOrEmpty uidBody = []
  · rw [if_pos huid] at h
    simp at h
  · rw [if_neg huid] at h
    split at h
    · simp at h
    · split at h
      · simp at h
      · split at h
        · simp at h
        · split at h
          · simp at h
          · injection h with h1 h2
            injection h1 with h1
            injection h1 with hfid hfn
            subst hfid
            subst hfn
            refine ⟨rfl, ?_, ?_⟩
            · refine ⟨(if trimOrEmpty carpetaBody ≠ [] then
                trimOrEmpty carpetaBody ++ "/".toList else []) ++ f.originalname, ?_⟩
              simp
            · intro q hq
              rw [← h2] at hq
              simp only [List.mem_cons, List.not_mem_nil, or_false] at hq
              rcases hq with hq | hq | hq
              · exact absurd hq (by simp)
              · exact absurd hq (by simp)
              · injection hq with hq
                subst hq
                refine ⟨(if trimOrEmpty carpetaBody ≠ [] then
                  trimOrEmpty carpetaBody ++ "/".toList else []) ++ f.originalname, ?_⟩
                simp

theorem C3_upload_path_namespaced_witness :
    (uploadHandler stubEnv (some " u1 ".toList) (some "fotos".toList)
        (some ⟨"uploads/tmp1".toList, "a.png".toList⟩)).1
      = .ok ("fid123".toList, "archivos/u1/fotos/a.png".toList) ∧
    "archivos/u1/fotos/a.png".toList =
      "archivos/".toList ++ trimOrEmpty (some " u1 ".toList) ++ "/".toList
      ++ (if trimOrEmpty (some "fotos".toList) ≠ [] then
            trimOrEmpty (some "fotos".toList) ++ "/".toList else [])
      ++ "a.png".toList := by
  have h : uploadHandler stubEnv (some " u1 ".toList) (some "fotos".toList)
      (some ⟨"uploads/tmp1".toList, "a.png".toList⟩)
      = (.ok ("fid123".toList, "archivos/u1/fotos/a.png".toList),
         [.authorize, .getUploadUrl,
          .uploadFile "archivos/u1/fotos/a.png".toList]) := by decide
  have h2 := C3_upload_path_namespaced stubEnv (some " u1 ".toList)
    (some "fotos".toList) ⟨"uploads/tmp1".toList, "a.png".toList⟩
    "fid123".toList "archivos/u1/fotos/a.png".toList
    [.authorize, .getUploadUrl, .uploadFile "archivos/u1/fotos/a.png".toList] h
  exact ⟨by rw [h], h2.1⟩

/-- C6: GET /files never answers 400; the list request sent to the store
uses maxFileCount 100 and prefix `archivos/{uid}/` for a non-empty
trimmed uid, `archivos/` otherwise; at most 100 entries are returned. -/
theorem C6_files_list_capped (env : B2Env) (store : List StoredFile)
    (uidQ : Option JSStr) :
    (getFilesHandler env store uidQ).1.status ≠ 400
    ∧ (∀ p n, B2Op.listFileNames p n ∈ (getFilesHandler env store uidQ).2 →
        n = 100 ∧
        p = "archivos/".toList ++
          (if trimOrEmpty uidQ ≠ [] then trimOrEmpty uidQ ++ "/".toList else []))
    ∧ (∀ a, env.authorize = .ok a →
        B2Op.listFileNames
          ("archivos/".toList ++
            (if trimOrEmpty uidQ ≠ [] then trimOrEmpty uidQ ++ "/".toList else []))
          100 ∈ (getFilesHandler env store uidQ).2)
    ∧ (∀ l, (getFilesHandler env store uidQ).1 = .ok l → l.length ≤ 100) := by
  unfold getFilesHandler
  cases ha : env.authorize with
  | error e =>
    refine ⟨by simp [ApiRes.status], ?_, ?_, ?_⟩
    · intro p n hp
      simp at hp
    · intro a h
      simp at h
    · intro l hl
      simp at hl
  | ok a =>
    refine ⟨by simp [ApiRes.status], ?_, ?_, ?_⟩
    · intro p n hp
      simp only [List.mem_cons, List.not_mem_nil, or_false] at hp
      rcases hp with hp | hp
      · exact absurd hp (by simp)
      · injection hp with h1 h2
        exact ⟨h2, h1⟩
    · intro a' _
      simp
    · intro l hl
      simp only [ApiRes.ok.injEq] at hl
      rw [← hl]
      exact le_trans (List.length_take_le _ _) (le_refl _)

theorem C6_files_list_capped_witness :
    (getFilesHandler stubEnv
      [⟨"archivos/u1/a.txt".toList, "f1".toList⟩,
       ⟨"archivos/u2/b.txt".toList, "f2".toList⟩]
      (some "u1".toList)).1.status ≠ 400 :=
  (C6_files_list_capped stubEnv
    [⟨"archivos/u1/a.txt".toList, "f1".toList⟩,
     ⟨"archivos/u2/b.txt".toList, "f2".toList⟩]
    (some "u1".toList)).1

/-- C1: DELETE /file answers 400 when fileId, fileName or uid is absent or
empty; with all present it answers 403 and issues no store operation
whenever fileName does not start with `archivos/{uid}/`; a
version-specific delete is only ever issued after the prefix check passes
and uses exactly the given fileId and fileName; when the check passes and
the store calls succeed, the store's delete result is returned with
success true. -/
theorem C1_delete_file_guarded (env : B2Env) (fileId fileName uid : Option JSStr) :
    ((jsTruthy fileId = false ∨ jsTruthy fileName = false ∨ jsTruthy uid = false) →
      deleteFileHandler env fileId fileName uid =
        (.badRequest "Se requiere fileId, fileName y uid".toList, []))
    ∧ (jsTruthy fileId = true → jsTruthy fileName = true → jsTruthy uid = true →
      ("archivos/".toList ++ uid.getD [] ++ "/".toList).isPrefixOf (fileName.getD [])
          = false →
      deleteFileHandler env fileId fileName uid =
        (.forbidden "No autorizado para eliminar este archivo".toList, []))
    ∧ (∀ fid fn,
        B2Op.deleteFileVersion fid fn ∈ (deleteFileHandler env fileId fileName uid).2 →
        ("archivos/".toList ++ uid.getD [] ++ "/".toList).isPrefixOf (fileName.getD [])
          = true ∧ fid = fileId.getD [] ∧ fn = fileName.getD [])
    ∧ (∀ a d, jsTruthy fileId = true → jsTruthy fileName = true → jsTruthy uid = true →
        ("archivos/".toList ++ uid.getD [] ++ "/".toList).isPrefixOf (fileName.getD [])
          = true →
        env.authorize = Except.ok a →
        env.deleteFileVersion (fileId.getD []) (fileName.getD []) = Except.ok d →
        deleteFileHandler env fileId fileName uid =
          (.ok d,
           [B2Op.authorize,
            B2Op.deleteFileVersion (fileId.getD []) (fileName.getD [])])
        ∧ (deleteFileHandler env fileId fileName uid).1.success = true) := by
  refine ⟨?_, ?_, ?_, ?_⟩
  · intro hv
    simp only [deleteFileHandler]
    rw [if_pos hv]
  · intro h1 h2 h3 hp
    simp only [deleteFileHandler]
    rw [if_neg (by simp [h1, h2, h3]), if_pos hp]
  · intro fid fn hq
    simp only [deleteFileHandler] at hq
    by_cases hv : jsTruthy fileId = false ∨ jsTruthy fileName = false ∨ jsTruthy uid = false
    · rw [if_pos hv] at hq
      simp at hq
    · rw [if_neg hv] at hq
      by_cases hp : ("archivos/".toList ++ uid.getD [] ++ "/".toList).isPrefixOf
          (fileName.getD []) = false
      · rw [if_pos hp] at hq
        simp at hq
      · rw [if_neg hp] at hq
        have hp' : ("archivos/".toList ++ uid.getD [] ++ "/".toList).isPrefixOf
            (fileName.getD []) = true := by
          revert hp
          cases ("archivos/".toList ++ uid.getD [] ++ "/".toList).isPrefixOf
            (fileName.getD []) <;> simp
        refine ⟨hp', ?_⟩
        split at hq
        · simp at hq
        · split at hq <;>
          · simp only [List.mem_cons, List.not_mem_nil, or_false] at hq
            rcases hq with hq | hq
            · exact absurd hq (by simp)
            · injection hq with ha hb
              exact ⟨ha, hb⟩
  · intro a d h1 h2 h3 hp ha hd
    have hp' : ("archivos/".toList ++ uid.getD [] ++ "/".toList) <+: fileName.getD [] :=
      List.isPrefixOf_iff_prefix.mp hp
    simp only [deleteFileHandler]
    rw [if_neg (by simp [h1, h2, h3]), if_neg (by simpa using hp'), ha, hd]
    exact ⟨rfl, rfl⟩

theorem C1_delete_file_guarded_witness :
    (deleteFileHandler stubEnv (some "X".toList)
        (some "archivos/u2/doc.pdf".toList) (some "u1".toList) =
      (.forbidden "No autorizado para eliminar este archivo".toList, []))
    ∧ (deleteFileHandler stubEnv none
        (some "archivos/u1/doc.pdf".toList) (some "u1".toList) =
      (.badRequest "Se requiere fileId, fileName y uid".toList, []))
    ∧ (deleteFileHandler stubEnv (some "X".toList)
        (some "archivos/u1/doc.pdf".toList) (some "u1".toList) =
      (.ok "deleted".toList,
       [B2Op.authorize,
        B2Op.deleteFileVersion "X".toList "archivos/u1/doc.pdf".toList])) :=
  ⟨(C1_delete_file_guarded stubEnv (some "X".toList)
      (some "archivos/u2/doc.pdf".toList) (some "u1".toList)).2.1
    (by decide) (by decide) (by decide) (by decide),
   (C1_delete_file_guarded stubEnv none
      (some "archivos/u1/doc.pdf".toList) (some "u1".toList)).1
    (Or.inl (by decide)),
   ((C1_delete_file_guarded stubEnv (some "X".toList)
      (some "archivos/u1/doc.pdf".toList) (some "u1".toList)).2.2.2
    ⟨"https://f003.backblazeb2.com".toList⟩ "deleted".toList
    (by decide) (by decide) (by decide) (by decide) rfl rfl).1⟩

/-- C7: any download-authorization request issued by GET /download uses
exactly the given fileName with validity 3600 seconds, and on the success
path the handler returns the signed URL
`{downloadUrl}/file/{bucketName}/{fileName}?Authorization={token}` (a URL
string, not the file bytes). -/
theorem C7_download_signed_url (env : B2Env) (f u : JSStr) :
    (∀ p n,
      B2Op.getDownloadAuthorization p n ∈ (downloadHandler env (some f) (some u)).2 →
      p = f ∧ n = 3600)
    ∧ (∀ auth token, jsTrim u ≠ [] →
        ("archivos/".toList ++ jsTrim u ++ "/".toList).isPrefixOf f = true →
        env.authorize = Except.ok auth →
        env.getDownloadAuthorization f 3600 = Except.ok token →
        downloadHandler env (some f) (some u) =
          (.ok (auth.downloadUrl ++ "/file/".toList ++ env.bucketName ++ "/".toList
            ++ f ++ "?Authorization=".toList ++ token),
           [B2Op.authorize, B2Op.getDownloadAuthorization f 3600])) := by
  constructor
  · intro p n hq
    simp only [downloadHandler] at hq
    by_cases hv : jsTruthy (some f) = false ∨ trimOrEmpty (some u) = []
    · rw [if_pos hv] at hq
      simp at hq
    · rw [if_neg hv] at hq
      by_cases hp : ("archivos/".toList ++ trimOrEmpty (some u) ++ "/".toList).isPrefixOf
          ((some f : Option JSStr).getD []) = false
      · rw [if_pos hp] at hq
        simp at hq
      · rw [if_neg hp] at hq
        split at hq
        · simp at hq
        · split at hq <;>
          · simp only [List.mem_cons, List.not_mem_nil, or_false] at hq
            rcases hq with hq | hq
            · exact absurd hq (by simp)
            · injection hq with ha hb
              exact ⟨ha, hb⟩
  · intro auth token hjt hp ha hd
    have hu : u ≠ [] := by
      intro he
      subst he
      exact hjt rfl
    have htr : trimOrEmpty (some u) = jsTrim u := by
      simp [trimOrEmpty, jsTruthy, hu]
    have hf : f ≠ [] := by
      intro he
      subst he
      rw [List.isPrefixOf_iff_prefix] at hp
      have := List.eq_nil_of_prefix_nil hp
      simp at this
    have hp' : ("archivos/".toList ++ jsTrim u ++ "/".toList) <+: f :=
      List.isPrefixOf_iff_prefix.mp hp
    simp only [downloadHandler, htr]
    rw [if_neg (by simp [jsTruthy, hf, hjt]), Option.getD_some,
      if_neg (by simpa using hp'), ha, hd]

theorem C7_download_signed_url_witness :
    downloadHandler stubEnv (some "archivos/u1/carp/a.pdf".toList)
      (some "u1".toList) =
    (.ok ("https://f003.backblazeb2.com/file/mybucket/archivos/u1/carp/a.pdf?Authorization=dltok".toList),
     [B2Op.authorize,
      B2Op.getDownloadAuthorization "archivos/u1/carp/a.pdf".toList 3600]) :=
  (C7_download_signed_url stubEnv "archivos/u1/carp/a.pdf".toList "u1".toList).2
    ⟨"https://f003.backblazeb2.com".toList⟩ "dltok".toList
    (by decide) (by decide) rfl rfl

/-- C4: POST /folder answers 400 and leaves the registry unchanged when
name or uid is absent or empty; otherwise it appends
`{id: folderIdCounter++, name, uid}` and returns it with success true;
from a fresh process the first two successful creations get ids 1 and 2;
in every reachable state the folder ids are strictly increasing and
unique. -/
theorem C4_folder_create (st : FoldersState) (name uid : Option JSStr)
    (hreach : Reachable st) :
    ((jsTruthy name = false ∨ jsTruthy uid = false) →
      (postFolderHandler st name uid).1.status = 400 ∧
      (postFolderHandler st name uid).2 = st)
    ∧ (jsTruthy name = true → jsTruthy uid = true →
      (postFolderHandler st name uid).1 =
        .ok ⟨st.folderIdCounter, name.getD [], uid.getD []⟩ ∧
      (postFolderHandler st name uid).1.success = true ∧
      (postFolderHandler st name uid).2.folders =
        st.folders ++ [⟨st.folderIdCounter, name.getD [], uid.getD []⟩] ∧
      (postFolderHandler st name uid).2.folderIdCounter = st.folderIdCounter + 1)
    ∧ (∀ n u n2 u2 : JSStr, n ≠ [] → u ≠ [] → n2 ≠ [] → u2 ≠ [] →
      (postFolderHandler initialState (some n) (some u)).1 = .ok ⟨1, n, u⟩ ∧
      (postFolderHandler (postFolderHandler initialState (some n) (some u)).2
        (some n2) (some u2)).1 = .ok ⟨2, n2, u2⟩)
    ∧ (st.folders.map Folder.id).Chain' (· < ·)
    ∧ (st.folders.map Folder.id).Nodup := by
  have hg := reachable_good st hreach
  refine ⟨?_, ?_, ?_, hg.1, ?_⟩
  · intro hv
    simp only [postFolderHandler]
    rw [if_pos hv]
    exact ⟨rfl, rfl⟩
  · intro h1 h2
    simp only [postFolderHandler]
    rw [if_neg (by simp [h1, h2])]
    exact ⟨rfl, rfl, rfl, rfl⟩
  · intro n u n2 u2 hn hu hn2 hu2
    constructor
    · simp [postFolderHandler, jsTruthy, hn, hu, initialState]
    · simp [postFolderHandler, jsTruthy, hn, hu, hn2, hu2, initialState]
  · exact List.Pairwise.imp (fun h => Nat.ne_of_lt h)
      (List.chain'_iff_pairwise.mp hg.1)

theorem C4_folder_create_witness :
    (postFolderHandler initialState (some "Docs".toList) (some "u1".toList)).1 =
      .ok ⟨1, "Docs".toList, "u1".toList⟩ ∧
    (postFolderHandler (postFolderHandler initialState (some "Docs".toList)
        (some "u1".toList)).2 (some "Pics".toList) (some "u1".toList)).1 =
      .ok ⟨2, "Pics".toList, "u1".toList⟩ :=
  (C4_folder_create initialState (some "Docs".toList) (some "u1".toList)
    Reachable.init).2.2.1 "Docs".toList "u1".toList "Pics".toList "u1".toList
    (by decide) (by decide) (by decide) (by decide)

/-- C5 counterexample: with one folder of uid "u1" in the registry, the
query uid "u1 " (trailing space, present and non-empty) is answered with
that folder, whose uid field differs from the query uid — so the response
is not the folders whose uid equals the query uid. -/
theorem C5_counterexample :
    jsTruthy (some "u1 ".toList) = true
    ∧ getFoldersHandler
        (postFolderHandler initialState (some "n".toList) (some "u1".toList)).2
        (some "u1 ".toList)
      = .ok [⟨1, "n".toList, "u1".toList⟩]
    ∧ ("u1".toList : JSStr) ≠ "u1 ".toList := by decide

/-- C5 (amended): GET /folders answers 400 when the query uid is absent
or trims to empty; otherwise it returns, in insertion order, exactly the
folders whose uid equals the trimmed query uid (never one whose uid
differs from the trimmed query uid); the registry is not modified. -/
theorem C5_folders_filtered_by_trimmed_uid (st : FoldersState)
    (uidQ : Option JSStr) :
    (trimOrEmpty uidQ = [] → (getFoldersHandler st uidQ).status = 400)
    ∧ (trimOrEmpty uidQ ≠ [] →
      ∃ l, getFoldersHandler st uidQ = .ok l
        ∧ l.Sublist st.folders
        ∧ (∀ f ∈ l, f.uid = trimOrEmpty uidQ)
        ∧ (∀ f ∈ st.folders, f.uid = trimOrEmpty uidQ → f ∈ l)) := by
  constructor
  · intro h
    simp only [getFoldersHandler]
    rw [if_pos h]
    rfl
  · intro h
    refine ⟨st.folders.filter (fun folder => folder.uid == trimOrEmpty uidQ),
      ?_, ?_, ?_, ?_⟩
    · simp only [getFoldersHandler]
      rw [if_neg h]
    · exact List.filter_sublist _
    · intro f hf
      rw [List.mem_filter] at hf
      exact eq_of_beq hf.2
    · intro f hf hfe
      rw [List.mem_filter]
      exact ⟨hf, by simp [hfe]⟩

theorem C5_folders_filtered_by_trimmed_uid_witness :
    (getFoldersHandler initialState (none : Option JSStr)).status = 400
    ∧ ∃ l, getFoldersHandler ⟨[⟨1, "n".toList, "u1".toList⟩], 2⟩
        (some " u1 ".toList) = .ok l
      ∧ l.Sublist [⟨1, "n".toList, "u1".toList⟩]
      ∧ (∀ f ∈ l, f.uid = trimOrEmpty (some " u1 ".toList))
      ∧ (∀ f ∈ [(⟨1, "n".toList, "u1".toList⟩ : Folder)],
          f.uid = trimOrEmpty (some " u1 ".toList) → f ∈ l) :=
  ⟨(C5_folders_filtered_by_trimmed_uid initialState none).1 (by decide),
   (C5_folders_filtered_by_trimmed_uid ⟨[⟨1, "n".toList, "u1".toList⟩], 2⟩
      (some " u1 ".toList)).2 (by decide)⟩

/-- C2 counterexample: with a present fileName inside u1's namespace and
the present uid " u1" (leading space), DELETE /file answers 403 (it uses
the raw uid) while GET /download proceeds and answers 200 (it trims the
uid first): the two authorization decisions differ. -/
theorem C2_counterexample :
    jsTruthy (some "archivos/u1/f.txt".toList) = true
    ∧ jsTruthy (some " u1".toList) = true
    ∧ (deleteFileHandler stubEnv (some "X".toList)
        (some "archivos/u1/f.txt".toList) (some " u1".toList)).1.status = 403
    ∧ (downloadHandler stubEnv (some "archivos/u1/f.txt".toList)
        (some " u1".toList)).1.status = 200 := by decide

/-- C2 (amended): for present fileId, fileName and uid where the uid is
unchanged by trimming, the download handler answers 403 exactly when the
delete handler does; for uids with leading or trailing whitespace the two
can differ, because download trims the uid before the prefix check and
delete does not. -/
theorem C2_download_delete_auth_agree (envD envX : B2Env)
    (fid f u : JSStr) (hfid : fid ≠ []) (hf : f ≠ []) (hu : u ≠ [])
    (htrim : jsTrim u = u) :
    (downloadHandler envD (some f) (some u)).1.status = 403 ↔
    (deleteFileHandler envX (some fid) (some f) (some u)).1.status = 403 := by
  have htr : trimOrEmpty (some u) = u := by
    simp [trimOrEmpty, jsTruthy, hu, htrim]
  by_cases hp : ("archivos/".toList ++ u ++ "/".toList).isPrefixOf f = true
  · have hp' : ("archivos/".toList ++ u ++ "/".toList) <+: f :=
      List.isPrefixOf_iff_prefix.mp hp
    have hD : (downloadHandler envD (some f) (some u)).1.status ≠ 403 := by
      simp only [downloadHandler, htr]
      rw [if_neg (by simp [jsTruthy, hf, hu]), Option.getD_some,
        if_neg (by simpa using hp')]
      split
      · simp [ApiRes.status]
      · split <;> simp [ApiRes.status]
    have hX : (deleteFileHandler envX (some fid) (some f) (some u)).1.status ≠ 403 := by
      simp only [deleteFileHandler]
      rw [if_neg (by simp [jsTruthy, hf, hu, hfid]),
        if_neg (by simpa using hp')]
      split
      · simp [ApiRes.status]
      · split <;> simp [ApiRes.status]
    exact ⟨fun h => absurd h hD, fun h => absurd h hX⟩
  · have hp0 : ("archivos/".toList ++ u ++ "/".toList).isPrefixOf f = false := by
      revert hp
      cases ("archivos/".toList ++ u ++ "/".toList).isPrefixOf f <;> simp
    have hD : (downloadHandler envD (some f) (some u)).1.status = 403 := by
      simp only [downloadHandler, htr]
      rw [if_neg (by simp [jsTruthy, hf, hu]), Option.getD_some,
        if_pos (by simpa using hp0)]
      rfl
    have hX : (deleteFileHandler envX (some fid) (some f) (some u)).1.status = 403 := by
      simp only [deleteFileHandler]
      rw [if_neg (by simp [jsTruthy, hf, hu, hfid]),
        if_pos (by simpa using hp0)]
      rfl
    exact ⟨fun _ => hX, fun _ => hD⟩

theorem C2_download_delete_auth_agree_witness :
    (downloadHandler stubEnv (some "archivos/u2/f.txt".toList)
      (some "u1".toList)).1.status = 403 ↔
    (deleteFileHandler stubEnv (some "X".toList)
      (some "archivos/u2/f.txt".toList) (some "u1".toList)).1.status = 403 :=
  C2_download_delete_auth_agree stubEnv stubEnv "X".toList
    "archivos/u2/f.txt".toList "u1".toList
    (by decide) (by decide) (by decide) (by decide)

/-- C10: POST /folder stores name and uid exactly as supplied (no
trimming), while GET /folders compares against the trimmed query uid, so
a folder whose uid has leading or trailing whitespace is never contained
in any successful GET /folders response, whatever the query uid. -/
theorem C10_whitespace_uid_never_listed (st st2 : FoldersState)
    (name uid : JSStr) (hn : name ≠ []) (hu : uid ≠ [])
    (hws : hasEdgeWhitespace uid = true) :
    (postFolderHandler st (some name) (some uid)).1 =
      .ok ⟨st.folderIdCounter, name, uid⟩
    ∧ ∀ uidQ l, getFoldersHandler st2 uidQ = .ok l → ∀ f ∈ l, f.uid ≠ uid := by
  constructor
  · simp [postFolderHandler, jsTruthy, hn, hu]
  · intro uidQ l hl f hf
    simp only [getFoldersHandler] at hl
    by_cases he : trimOrEmpty uidQ = []
    · rw [if_pos he] at hl
      exact absurd hl (by simp)
    · rw [if_neg he] at hl
      injection hl with hl
      subst hl
      rw [List.mem_filter] at hf
      rw [eq_of_beq hf.2]
      cases uidQ with
      | none => simp [trimOrEmpty, jsTruthy] at he
      | some q =>
        by_cases hq : q = []
        · subst hq
          simp [trimOrEmpty, jsTruthy] at he
        · have hq2 : trimOrEmpty (some q) = jsTrim q := by
            simp [trimOrEmpty, jsTruthy, hq]
          rw [hq2]
          exact jsTrim_ne_of_edgeWhitespace uid q hws

theorem C10_whitespace_uid_never_listed_witness :
    (postFolderHandler initialState (some "n".toList) (some " u1".toList)).1 =
      .ok ⟨1, "n".toList, " u1".toList⟩
    ∧ Folder.uid ⟨1, "n".toList, "u1".toList⟩ ≠ " u1".toList :=
  ⟨(C10_whitespace_uid_never_listed initialState
      ⟨[⟨1, "n".toList, "u1".toList⟩], 2⟩ "n".toList " u1".toList
      (by decide) (by decide) (by decide)).1,
   (C10_whitespace_uid_never_listed initialState
      ⟨[⟨1, "n".toList, "u1".toList⟩], 2⟩ "n".toList " u1".toList
      (by decide) (by decide) (by decide)).2
     (some "u1 ".toList) [⟨1, "n".toList, "u1".toList⟩] (by decide)
     ⟨1, "n".toList, "u1".toList⟩ (by decide)⟩

/-- The reminder sent by the per-event poller body is the recipient
resolution gated by the five-minute window. -/
theorem notifyFor_fst (parse : JSStr → Option Int)
    (getUser : JSStr → Option (Option JSStr)) (now : Int) (e : Evento) :
    (notifyFor parse getUser now e).1 =
      match parse (eventDateStr e) with
      | none => none
      | some t =>
        if now ≤ t ∧ t ≤ now + 5 * 60 * 1000 then
          (resolveRecipient getUser e).map (fun a => (⟨a, e.title⟩ : SentMail))
        else none := by
  unfold notifyFor resolveRecipient
  cases parse (eventDateStr e) with
  | none => rfl
  | some t =>
    by_cases hw : now ≤ t ∧ t ≤ now + 5 * 60 * 1000
    · simp only [if_pos hw]
      by_cases hb : jsTruthy e.email = false ∧ jsTruthy e.userId = true
      · simp only [if_pos hb]
        cases getUser (e.userId.getD []) with
        | none => rfl
        | some email1 =>
          cases email1 with
          | none => simp [jsTruthy]
          | some s =>
            by_cases hs : s = []
            · simp [jsTruthy, hs]
            · simp [jsTruthy, hs]
      · simp only [if_neg hb]
        cases e.email with
        | none => simp [jsTruthy]
        | some s =>
          by_cases hs : s = []
          · simp [jsTruthy, hs]
          · simp [jsTruthy, hs]
    · simp only [if_neg hw]

/-- C9: on a poller tick an email is produced for an event exactly when
its parsed instant `start + "T" + time + ":00"` lies in
`[now, now + 5 min]` and a recipient resolves; the recipient is the
event's email field when truthy, otherwise the identity-provider email
for its userId; a failed lookup, an untruthy looked-up email, or neither
field truthy produces no email; at most one identity lookup happens per
event; the tick's output is exactly the per-event sends over the whole
collection. -/
theorem C9_reminder_window_and_recipient (parse : JSStr → Option Int)
    (getUser : JSStr → Option (Option JSStr)) (now : Int)
    (eventos : List Evento) :
    (∀ m, m ∈ checkUpcomingEvents parse getUser now eventos ↔
      ∃ e ∈ eventos, (notifyFor parse getUser now e).1 = some m)
    ∧ (∀ e, (∃ m, (notifyFor parse getUser now e).1 = some m) ↔
        ((∃ t, parse (eventDateStr e) = some t
            ∧ now ≤ t ∧ t ≤ now + 5 * 60 * 1000)
         ∧ ∃ a, resolveRecipient getUser e = some a))
    ∧ (∀ e m, (notifyFor parse getUser now e).1 = some m →
        resolveRecipient getUser e = some m.recipient ∧ m.title = e.title)
    ∧ (∀ e, jsTruthy e.email = true → resolveRecipient getUser e = e.email)
    ∧ (∀ e, jsTruthy e.email = false → jsTruthy e.userId = true →
        getUser (e.userId.getD []) = none → resolveRecipient getUser e = none)
    ∧ (∀ e r, jsTruthy e.email = false → jsTruthy e.userId = true →
        getUser (e.userId.getD []) = some r → jsTruthy r = true →
        resolveRecipient getUser e = r)
    ∧ (∀ e, jsTruthy e.email = false → jsTruthy e.userId = false →
        resolveRecipient getUser e = none)
    ∧ (∀ e, (notifyFor parse getUser now e).2.length ≤ 1) := by
  refine ⟨?_, ?_, ?_, ?_, ?_, ?_, ?_, ?_⟩
  · intro m
    unfold checkUpcomingEvents
    exact List.mem_filterMap
  · intro e
    rw [notifyFor_fst]
    constructor
    · rintro ⟨m, hm⟩
      split at hm
      · exact absurd hm (by simp)
      · next t hp =>
        by_cases hw : now ≤ t ∧ t ≤ now + 5 * 60 * 1000
        · rw [if_pos hw] at hm
          obtain ⟨a, ha, -⟩ := Option.map_eq_some'.mp hm
          exact ⟨⟨t, hp, hw⟩, ⟨a, ha⟩⟩
        · rw [if_neg hw] at hm
          exact absurd hm (by simp)
    · rintro ⟨⟨t, hp, hw1, hw2⟩, a, ha⟩
      refine ⟨⟨a, e.title⟩, ?_⟩
      simp only [hp]
      rw [if_pos ⟨hw1, hw2⟩, ha]
      rfl
  · intro e m h
    rw [notifyFor_fst] at h
    split at h
    · exact absurd h (by simp)
    · split at h
      · obtain ⟨a, ha, hm⟩ := Option.map_eq_some'.mp h
        subst hm
        exact ⟨ha, rfl⟩
      · exact absurd h (by simp)
  · intro e he
    unfold resolveRecipient
    simp [he]
  · intro e he hu hg
    unfold resolveRecipient
    simp [he, hu, hg]
  · intro e r he hu hg ht
    unfold resolveRecipient
    simp [he, hu, hg, ht]
  · intro e he hu
    unfold resolveRecipient
    simp [he, hu]
  · intro e
    unfold notifyFor
    cases hp : parse (eventDateStr e) with
    | none => simp
    | some t =>
      by_cases hw : now ≤ t ∧ t ≤ now + 5 * 60 * 1000
      · simp only [if_pos hw]
        by_cases hb : jsTruthy e.email = false ∧ jsTruthy e.userId = true
        · simp only [if_pos hb]
          cases getUser (e.userId.getD []) with
          | none => simp
          | some email1 =>
            by_cases ht : jsTruthy email1 = true
            · simp [ht]
            · simp [ht]
        · simp only [if_neg hb]
          by_cases he : jsTruthy e.email = true
          · simp [he]
          · simp [he]
      · simp only [if_neg hw]
        simp

theorem C9_reminder_window_and_recipient_witness :
    resolveRecipient stubGetUser ev9 = some "ana@example.com".toList
    ∧ (notifyFor stubParse stubGetUser 0 ev9).2.length ≤ 1 :=
  ⟨(C9_reminder_window_and_recipient stubParse stubGetUser 0 [ev9]).2.2.2.2.2.1
     ev9 (some "ana@example.com".toList)
     (by decide) (by decide) (by decide) (by decide),
   (C9_reminder_window_and_recipient stubParse stubGetUser 0 [ev9]).2.2.2.2.2.2.2
     ev9⟩
